import Mathlib

/-!
Verification of the schema-directed field decoder (`FieldData`) from
`logical/framework/field_data.go`: the raw-record/schema data model, the
`Validate` / `Get` / `GetOk` / `GetOkErr` / `GetDefaultOrZero` accessors and
the per-type coercion dispatcher `getPrimitive`.

Dynamic Go values (`interface{}` contents) are modelled by the inductive
`GoValue`; a Go call that can `panic` is modelled by `GoResult`, whose
`panicked` constructor carries the panic message.  The collaborators that are
not part of the source file (the mapstructure weak decoder, the duration
parser, the string trimmer, and the `FieldSchema` record with its
`DefaultOrZero` resolution) are modelled from the specification, as marked on
each of their definitions.
-/

/-- A dynamically typed Go value (`interface{}`), covering the runtime kinds
the decoder inspects: nil, booleans, the integer family (`int`, `int32`,
`int64`, `uint`, `uint32`, `uint64`), the two float kinds (their numeric value
modelled exactly as a rational), strings, `json.Number` (a numeric-string wire
type), `[]string`, `[]interface` and `map[string]interface` values. -/
inductive GoValue where
  | vNil : GoValue
  | vBool : Bool → GoValue
  | vInt : Int → GoValue
  | vInt32 : Int → GoValue
  | vInt64 : Int → GoValue
  | vUInt : Nat → GoValue
  | vUInt32 : Nat → GoValue
  | vUInt64 : Nat → GoValue
  | vFloat32 : Rat → GoValue
  | vFloat64 : Rat → GoValue
  | vString : String → GoValue
  | vJsonNumber : String → GoValue
  | vStrSlice : List String → GoValue
  | vSlice : List GoValue → GoValue
  | vMap : List (String × GoValue) → GoValue

/-- The closed enumeration of field types, plus `typeInvalid` standing for any
type value outside the nine recognized kinds (in Go the type is an integer tag,
so unrecognized values are representable). -/
inductive FieldType where
  | typeInvalid : FieldType
  | typeBool : FieldType
  | typeInt : FieldType
  | typeString : FieldType
  | typeNameString : FieldType
  | typeMap : FieldType
  | typeDurationSecond : FieldType
  | typeSlice : FieldType
  | typeStringSlice : FieldType
  | typeCommaStringSlice : FieldType
deriving DecidableEq

/-- Display name of a field type, used in error messages. -/
def FieldType.name : FieldType → String
  | .typeInvalid => "invalid"
  | .typeBool => "bool"
  | .typeInt => "int"
  | .typeString => "string"
  | .typeNameString => "name-string"
  | .typeMap => "map"
  | .typeDurationSecond => "duration-second"
  | .typeSlice => "slice"
  | .typeStringSlice => "string-slice"
  | .typeCommaStringSlice => "comma-string-slice"

/-- Whether a type tag is one of the nine recognized kinds.  Both `Validate`
and `GetOkErr` in the source test exactly this nine-type membership in their
`switch` before calling `getPrimitive`. -/
def FieldType.recognized : FieldType → Bool
  | .typeInvalid => false
  | _ => true

/-- Modelled from the spec: the zero value of each field type (`FieldType.Zero`
lives outside the source file).  Per the spec glossary the zero value is the
canonical empty instance: false, 0, empty string, empty collection. -/
def FieldType.zero : FieldType → GoValue
  | .typeInvalid => .vNil
  | .typeBool => .vBool false
  | .typeInt => .vInt 0
  | .typeString => .vString ""
  | .typeNameString => .vString ""
  | .typeMap => .vMap []
  | .typeDurationSecond => .vInt 0
  | .typeSlice => .vSlice []
  | .typeStringSlice => .vStrSlice []
  | .typeCommaStringSlice => .vStrSlice []

/-- Modelled from the spec: the `FieldSchema` record (defined outside the
source file): a declared type and an optional default value.  `Typ` stands for
the Go field `Type` (a Lean keyword). -/
structure FieldSchema where
  Typ : FieldType
  Default : Option GoValue

/-- Modelled from the spec: `FieldSchema.DefaultOrZero` (defined outside the
source file) returns the configured default if one is set, otherwise the zero
value of the declared type. -/
def FieldSchema.DefaultOrZero (s : FieldSchema) : GoValue :=
  match s.Default with
  | some v => v
  | none => s.Typ.zero

/-- The result of a Go computation that may `panic`: either a normal value or
a panic carrying its message. -/
inductive GoResult (α : Type) where
  | ok : α → GoResult α
  | panicked : String → GoResult α
deriving DecidableEq

/-- Whether a `GoResult` is a normal (non-panic) result. -/
def GoResult.isOk {α : Type} : GoResult α → Bool
  | .ok _ => true
  | .panicked _ => false

/-- The numeric value of the digit list `ds` read in base 10. -/
def digitsToNat (ds : List Char) : Nat :=
  ds.foldl (fun a c => a * 10 + (c.toNat - 48)) 0

/-- Parse a string as an optionally negated base-10 integer; `none` if the
string is not a nonempty digit run (with optional leading minus). -/
def parseIntString (s : String) : Option Int :=
  match s.data with
  | '-' :: ds =>
    if ds ≠ [] ∧ ds.all (fun c => c.isDigit) then
      some (-(Int.ofNat (digitsToNat ds)))
    else none
  | ds =>
    if ds ≠ [] ∧ ds.all (fun c => c.isDigit) then
      some (Int.ofNat (digitsToNat ds))
    else none

/-- Truncation of a rational toward zero, the semantics of Go `int(f)` on a
float value. -/
def ratTrunc (q : Rat) : Int :=
  Int.tdiv q.num (Int.ofNat q.den)

/-- Go conversion `int(x)` from a 64-bit unsigned value: values at or above
2^63 wrap around to negative numbers. -/
def wrap64 (n : Nat) : Int :=
  Int.emod (Int.ofNat n + 9223372036854775808) 18446744073709551616
    - 9223372036854775808

/-- Rendering of a rational numeric payload in messages. -/
def ratRender (q : Rat) : String :=
  if q.den = 1 then toString q.num
  else toString q.num ++ "/" ++ toString q.den

/-- Rendering of a dynamic value inside error messages (Go `%v`).  Composite
values are rendered opaquely; the formatting collaborator is outside the
source file and no theorem depends on the composite text. -/
def GoValue.render : GoValue → String
  | .vNil => "<nil>"
  | .vBool b => if b then "true" else "false"
  | .vInt n => toString n
  | .vInt32 n => toString n
  | .vInt64 n => toString n
  | .vUInt n => toString n
  | .vUInt32 n => toString n
  | .vUInt64 n => toString n
  | .vFloat32 q => ratRender q
  | .vFloat64 q => ratRender q
  | .vString s => s
  | .vJsonNumber s => s
  | .vStrSlice _ => "[slice]"
  | .vSlice _ => "[slice]"
  | .vMap _ => "map[]"

/-- Modelled from the spec: the weak decoder collaborator (mapstructure, not
in the source tree) for a boolean target: booleans pass through, numbers are
true when nonzero, boolean-like strings parse, nil gives the zero value, any
other representation fails. -/
def weakDecodeBool : GoValue → Except String Bool
  | .vNil => .ok false
  | .vBool b => .ok b
  | .vInt n => .ok (n != 0)
  | .vInt32 n => .ok (n != 0)
  | .vInt64 n => .ok (n != 0)
  | .vUInt n => .ok (n != 0)
  | .vUInt32 n => .ok (n != 0)
  | .vUInt64 n => .ok (n != 0)
  | .vFloat32 q => .ok (q != 0)
  | .vFloat64 q => .ok (q != 0)
  | .vString s =>
    if s = "1" ∨ s = "t" ∨ s = "T" ∨ s = "true" ∨ s = "TRUE" ∨ s = "True" then
      .ok true
    else if s = "0" ∨ s = "f" ∨ s = "F" ∨ s = "false" ∨ s = "FALSE"
        ∨ s = "False" ∨ s = "" then
      .ok false
    else .error ("cannot parse " ++ s ++ " as bool")
  | _ => .error "cannot decode value as bool"

/-- Modelled from the spec: the weak decoder collaborator for a signed integer
target: integer-family values pass through (unsigned 64-bit wraps), floats
truncate, booleans become 1 or 0, numeric strings and numeric-string wire
values parse, nil gives the zero value, any other representation fails. -/
def weakDecodeInt : GoValue → Except String Int
  | .vNil => .ok 0
  | .vBool b => .ok (if b then 1 else 0)
  | .vInt n => .ok n
  | .vInt32 n => .ok n
  | .vInt64 n => .ok n
  | .vUInt n => .ok (wrap64 n)
  | .vUInt32 n => .ok (Int.ofNat n)
  | .vUInt64 n => .ok (wrap64 n)
  | .vFloat32 q => .ok (ratTrunc q)
  | .vFloat64 q => .ok (ratTrunc q)
  | .vString s =>
    match parseIntString s with
    | some n => .ok n
    | none => .error ("cannot parse " ++ s ++ " as int")
  | .vJsonNumber s =>
    match parseIntString s with
    | some n => .ok n
    | none => .error ("cannot parse " ++ s ++ " as int")
  | _ => .error "cannot decode value as int"

/-- Modelled from the spec: the weak decoder collaborator for a string target:
strings pass through, booleans become "1" or "0", numbers stringify, nil gives
the zero value, composite values fail. -/
def weakDecodeString : GoValue → Except String String
  | .vNil => .ok ""
  | .vBool b => .ok (if b then "1" else "0")
  | .vInt n => .ok (toString n)
  | .vInt32 n => .ok (toString n)
  | .vInt64 n => .ok (toString n)
  | .vUInt n => .ok (toString n)
  | .vUInt32 n => .ok (toString n)
  | .vUInt64 n => .ok (toString n)
  | .vFloat32 q => .ok (ratRender q)
  | .vFloat64 q => .ok (ratRender q)
  | .vString s => .ok s
  | .vJsonNumber s => .ok s
  | _ => .error "cannot decode value as string"

/-- Modelled from the spec: the weak decoder collaborator for a
string-to-value map target: maps pass through, an empty sequence counts as an
empty map, nil gives the zero value, anything else fails. -/
def weakDecodeMap : GoValue → Except String (List (String × GoValue))
  | .vNil => .ok []
  | .vMap m => .ok m
  | .vSlice [] => .ok []
  | _ => .error "cannot decode value as map"

/-- Modelled from the spec: the weak decoder collaborator for a generic
sequence target: sequences pass through, a string sequence embeds, nil gives
the zero value, and a single scalar value is wrapped into a one-element
sequence. -/
def weakDecodeSlice : GoValue → Except String (List GoValue)
  | .vNil => .ok []
  | .vSlice xs => .ok xs
  | .vStrSlice ss => .ok (ss.map GoValue.vString)
  | v => .ok [v]

/-- Modelled from the spec: the weak decoder collaborator for a string
sequence target: each element of a sequence is weakly decoded to a string, a
single scalar is wrapped then decoded, nil gives the zero value. -/
def weakDecodeStringSlice : GoValue → Except String (List String)
  | .vNil => .ok []
  | .vStrSlice ss => .ok ss
  | .vSlice xs => xs.mapM weakDecodeString
  | v =>
    match weakDecodeString v with
    | .ok s => .ok [s]
    | .error e => .error e

/-- Split a character list at every occurrence of `sep`, keeping empty
segments, the semantics of Go `strings.Split` with a one-character
separator. -/
def splitChar (sep : Char) : List Char → List (List Char)
  | [] => [[]]
  | c :: cs =>
    match splitChar sep cs with
    | [] => if c = sep then [[], [c]] else [[c]]
    | g :: gs => if c = sep then [] :: g :: gs else (c :: g) :: gs

/-- Comma-splitting of a string into a list of strings. -/
def splitCommas (s : String) : List String :=
  (splitChar ',' s.data).map List.asString

/-- Modelled from the spec: the comma-split variant of the weak decoder (the
string-to-sequence-on-comma decode hook): a single raw string is split on
commas (the empty string giving an empty sequence); any other raw value
decodes as an ordinary string sequence. -/
def commaDecodeStringSlice : GoValue → Except String (List String)
  | .vString s => if s = "" then .ok [] else .ok (splitCommas s)
  | v => weakDecodeStringSlice v

/-- Drop leading and trailing whitespace characters from a character list. -/
def trimChars (l : List Char) : List Char :=
  ((l.dropWhile Char.isWhitespace).reverse.dropWhile Char.isWhitespace).reverse

/-- Surrounding-whitespace trimming of one string. -/
def trimString (s : String) : String :=
  (trimChars s.data).asString

/-- Modelled from the spec: the String Normalizer collaborator
(`strutil.TrimStrings`, not in the source tree): trim surrounding whitespace
from every element, preserving order and count. -/
def TrimStrings (xs : List String) : List String :=
  xs.map trimString

/-- Modelled from the spec: the Duration Parser collaborator
(`parseutil.ParseDurationSecond`, not in the source tree): a bare digit run is
a count of seconds; a digit run followed by a unit (s, m or h) scales
accordingly; anything else is a parse error.  The result is the whole-second
count. -/
def ParseDurationSecond (s : String) : Except String Int :=
  let ds := s.data
  if ds = [] then .error "empty duration string"
  else if ds.all (fun c => c.isDigit) then .ok (Int.ofNat (digitsToNat ds))
  else
    let body := ds.dropLast
    let unit := ds.getLastD ' '
    if body ≠ [] ∧ body.all (fun c => c.isDigit) then
      if unit = 's' then .ok (Int.ofNat (digitsToNat body))
      else if unit = 'm' then .ok (Int.ofNat (digitsToNat body) * 60)
      else if unit = 'h' then .ok (Int.ofNat (digitsToNat body) * 3600)
      else .error ("unknown unit in duration " ++ s)
    else .error ("invalid duration " ++ s)

/-- Modelled from the spec: `json.Number.Int64` (standard library): parse the
literal as a base-10 integer, failing when it is not an integer literal or
does not fit in 64 signed bits. -/
def jsonNumberInt64 (s : String) : Except String Int :=
  match parseIntString s with
  | none => .error ("invalid number literal " ++ s)
  | some n =>
    if -9223372036854775808 ≤ n ∧ n < 9223372036854775808 then .ok n
    else .error ("number " ++ s ++ " does not fit in an int64")

/-- Is the character a word character in the sense of the RE2 class `\w`
(ASCII letters, digits and underscore)? -/
def isWordChar (c : Char) : Bool :=
  c.isAlphanum || c = '_'

/-- The constrained-name pattern of the source, regex `^\w(([\w-.]+)?\w)?$`:
the string is nonempty, starts and ends with a word character, and every
interior character is a word character, hyphen or period. -/
def nameStringValid (s : String) : Bool :=
  match s.data with
  | [] => false
  | [c] => isWordChar c
  | c :: cs =>
    isWordChar c && isWordChar (cs.getLastD ' ')
      && cs.dropLast.all (fun x => isWordChar x || x = '-' || x = '.')

/-- Error text of the name-string pattern failure in the source. -/
def nameFormatErr : String := "field does not match the formatting rules"

/-- `Validate` error text wrapping a coercion failure, naming the raw input
and the field. -/
def convertErrMsg (v : GoValue) (field e : String) : String :=
  "Error converting input " ++ v.render ++ " for field " ++ field ++ ": " ++ e

/-- Error text for a schema entry whose type is outside the recognized set,
naming the type then the field. -/
def unknownTypeMsg (t : FieldType) (field : String) : String :=
  "unknown field type " ++ t.name ++ " for field " ++ field

/-- `GetOkErr` error text for a key with no schema entry. -/
def unknownFieldMsg (k : String) : String := "unknown field: " ++ k

/-- Panic text of `Get` and `GetDefaultOrZero` on a key with no schema
entry. -/
def notInSchemaMsg (k : String) : String := "field " ++ k ++ " not in the schema"

/-- Panic text of `GetOk` when the underlying `GetOkErr` reports an error. -/
def errReadingMsg (k e : String) : String := "error reading " ++ k ++ ": " ++ e

/-- Panic text of the unreachable default branch of `getPrimitive`. -/
def unknownTypePanicMsg (t : FieldType) : String := "Unknown type: " ++ t.name

/-- The decoder: a raw record (`Raw`, a string-keyed map of dynamic values)
paired with a schema map (`Schema`).  Go maps are modelled as association
lists looked up by key. -/
structure FieldData where
  Raw : List (String × GoValue)
  Schema : List (String × FieldSchema)

/-- `FieldData.getPrimitive` from the source: coerce the raw value stored
under `k` (absence giving `(nil, false, nil)`) according to the schema entry
type.  Error returns carry the present flag exactly as the source does
(`true` on decode failures, `false` in the duration default branch and the
comma-slice decode failures), and the default branch panics. -/
def FieldData.getPrimitive (d : FieldData) (k : String) (schema : FieldSchema) :
    GoResult (Option GoValue × Bool × Option String) :=
  match d.Raw.lookup k with
  | none => .ok (none, false, none)
  | some raw =>
    match schema.Typ with
    | .typeBool =>
      match weakDecodeBool raw with
      | .error e => .ok (none, true, some e)
      | .ok b => .ok (some (.vBool b), true, none)
    | .typeInt =>
      match weakDecodeInt raw with
      | .error e => .ok (none, true, some e)
      | .ok n => .ok (some (.vInt n), true, none)
    | .typeString =>
      match weakDecodeString raw with
      | .error e => .ok (none, true, some e)
      | .ok s => .ok (some (.vString s), true, none)
    | .typeNameString =>
      match weakDecodeString raw with
      | .error e => .ok (none, true, some e)
      | .ok s =>
        if nameStringValid s then .ok (some (.vString s), true, none)
        else .ok (none, true, some nameFormatErr)
    | .typeMap =>
      match weakDecodeMap raw with
      | .error e => .ok (none, true, some e)
      | .ok m => .ok (some (.vMap m), true, none)
    | .typeDurationSecond =>
      match raw with
      | .vNil => .ok (none, false, none)
      | .vInt n => .ok (some (.vInt n), true, none)
      | .vInt32 n => .ok (some (.vInt n), true, none)
      | .vInt64 n => .ok (some (.vInt n), true, none)
      | .vUInt n => .ok (some (.vInt (wrap64 n)), true, none)
      | .vUInt32 n => .ok (some (.vInt (Int.ofNat n)), true, none)
      | .vUInt64 n => .ok (some (.vInt (wrap64 n)), true, none)
      | .vFloat32 q => .ok (some (.vInt (ratTrunc q)), true, none)
      | .vFloat64 q => .ok (some (.vInt (ratTrunc q)), true, none)
      | .vString s =>
        match ParseDurationSecond s with
        | .error e => .ok (none, true, some e)
        | .ok n => .ok (some (.vInt n), true, none)
      | .vJsonNumber s =>
        match jsonNumberInt64 s with
        | .error e => .ok (none, true, some e)
        | .ok n => .ok (some (.vInt n), true, none)
      | other => .ok (none, false, some ("invalid input " ++ other.render))
    | .typeSlice =>
      match weakDecodeSlice raw with
      | .error e => .ok (none, true, some e)
      | .ok xs => .ok (some (.vSlice xs), true, none)
    | .typeStringSlice =>
      match weakDecodeStringSlice raw with
      | .error e => .ok (none, true, some e)
      | .ok xs => .ok (some (.vStrSlice (TrimStrings xs)), true, none)
    | .typeCommaStringSlice =>
      match commaDecodeStringSlice raw with
      | .error e => .ok (none, false, some e)
      | .ok xs => .ok (some (.vStrSlice (TrimStrings xs)), true, none)
    | .typeInvalid => .panicked (unknownTypePanicMsg .typeInvalid)

/-- Recursion of `Validate` over the entries of the raw record: entries with
no schema entry are skipped; a recognized type is coerced, a coercion error
being wrapped by `convertErrMsg`; an unrecognized type stops with
`unknownTypeMsg`. -/
def validateAux (d : FieldData) : List (String × GoValue) → GoResult (Option String)
  | [] => .ok none
  | (field, value) :: rest =>
    match d.Schema.lookup field with
    | none => validateAux d rest
    | some schema =>
      if schema.Typ.recognized then
        match d.getPrimitive field schema with
        | .panicked m => .panicked m
        | .ok (_, _, some err) => .ok (some (convertErrMsg value field err))
        | .ok (_, _, none) => validateAux d rest
      else .ok (some (unknownTypeMsg schema.Typ field))

/-- `FieldData.Validate` from the source: walk the raw record, checking every
schema-known entry; `ok none` is success, `ok (some msg)` a validation
error. -/
def FieldData.Validate (d : FieldData) : GoResult (Option String) :=
  validateAux d d.Raw

/-- `FieldData.GetOkErr` from the source: unknown key and unrecognized type
are reported as errors; otherwise the coercion triple of `getPrimitive` is
returned. -/
def FieldData.GetOkErr (d : FieldData) (k : String) :
    GoResult (Option GoValue × Bool × Option String) :=
  match d.Schema.lookup k with
  | none => .ok (none, false, some (unknownFieldMsg k))
  | some schema =>
    if schema.Typ.recognized then d.getPrimitive k schema
    else .ok (none, false, some (unknownTypeMsg schema.Typ k))

/-- `FieldData.GetOk` from the source: unknown key gives `(nil, false)`; an
error from `GetOkErr` panics; a present-but-nil result is replaced by the
schema default-or-zero value. -/
def FieldData.GetOk (d : FieldData) (k : String) :
    GoResult (Option GoValue × Bool) :=
  match d.Schema.lookup k with
  | none => .ok (none, false)
  | some schema =>
    match d.GetOkErr k with
    | .panicked m => .panicked m
    | .ok (_, _, some e) => .panicked (errReadingMsg k e)
    | .ok (result, ok, none) =>
      if ok && result.isNone then .ok (some schema.DefaultOrZero, ok)
      else .ok (result, ok)

/-- `FieldData.Get` from the source: panics on a key with no schema entry;
otherwise the `GetOk` value, with the default-or-zero value substituted when
the field is not present. -/
def FieldData.Get (d : FieldData) (k : String) : GoResult (Option GoValue) :=
  match d.Schema.lookup k with
  | none => .panicked (notInSchemaMsg k)
  | some schema =>
    match d.GetOk k with
    | .panicked m => .panicked m
    | .ok (value, ok) =>
      if ok then .ok value else .ok (some schema.DefaultOrZero)

/-- `FieldData.GetDefaultOrZero` from the source: panics on a key with no
schema entry; otherwise the schema default-or-zero value. -/
def FieldData.GetDefaultOrZero (d : FieldData) (k : String) : GoResult GoValue :=
  match d.Schema.lookup k with
  | none => .panicked (notInSchemaMsg k)
  | some schema => .ok schema.DefaultOrZero

/-- The coercion outcome of a field under a schema entry: the error component
`getPrimitive` reports, a panic counting as its message.  `none` means the
coercion (or absence) is clean. -/
def coerceErr (d : FieldData) (k : String) (s : FieldSchema) : Option String :=
  match d.getPrimitive k s with
  | .ok (_, _, e) => e
  | .panicked m => some m

/-- A result known to be non-panicking is an `ok`. -/
theorem GoResult.isOk_exists {α : Type} {r : GoResult α} (h : r.isOk = true) :
    ∃ a, r = .ok a := by
  cases r with
  | ok a => exact ⟨a, rfl⟩
  | panicked m => simp [GoResult.isOk] at h

/-- The coercion dispatcher never panics on a recognized type: every branch
other than the unrecognized default returns normally. -/
theorem getPrimitive_isOk (d : FieldData) (k : String) (s : FieldSchema)
    (h : s.Typ.recognized = true) : (d.getPrimitive k s).isOk = true := by
  unfold FieldData.getPrimitive
  split
  · rfl
  · split <;> try rfl
    all_goals try (split <;> try rfl)
    all_goals try (split <;> try rfl)
    all_goals simp_all [FieldType.recognized]

/-- On a recognized type the dispatcher returns some triple normally. -/
theorem getPrimitive_ok (d : FieldData) (k : String) (s : FieldSchema)
    (h : s.Typ.recognized = true) : ∃ t, d.getPrimitive k s = .ok t :=
  GoResult.isOk_exists (getPrimitive_isOk d k s h)

/-- A clean coercion outcome under a recognized type means the dispatcher
returned a triple with no error. -/
theorem getPrimitive_clean (d : FieldData) (k : String) (s : FieldSchema)
    (h : s.Typ.recognized = true) (he : coerceErr d k s = none) :
    ∃ r b, d.getPrimitive k s = .ok (r, b, none) := by
  obtain ⟨⟨r, b, e⟩, ht⟩ := getPrimitive_ok d k s h
  simp only [coerceErr, ht] at he
  exact ⟨r, b, by rw [ht, he]⟩

/-- A failing coercion outcome under a recognized type means the dispatcher
returned a triple carrying exactly that error. -/
theorem getPrimitive_errOf (d : FieldData) (k : String) (s : FieldSchema)
    (h : s.Typ.recognized = true) {e : String} (he : coerceErr d k s = some e) :
    ∃ r b, d.getPrimitive k s = .ok (r, b, some e) := by
  obtain ⟨⟨r, b, e'⟩, ht⟩ := getPrimitive_ok d k s h
  simp only [coerceErr, ht] at he
  exact ⟨r, b, by rw [ht, he]⟩

/-- `validateAux` never panics: the dispatcher is only invoked on recognized
types. -/
theorem validateAux_isOk (d : FieldData) (l : List (String × GoValue)) :
    (validateAux d l).isOk = true := by
  induction l with
  | nil => rfl
  | cons p rest ih =>
    obtain ⟨field, value⟩ := p
    simp only [validateAux]
    split
    · exact ih
    next schema hs =>
      split
      next hr =>
        cases hgp : d.getPrimitive field schema with
        | panicked m =>
          have hok := getPrimitive_isOk d field schema hr
          rw [hgp] at hok
          simp [GoResult.isOk] at hok
        | ok t =>
          obtain ⟨r, b, e⟩ := t
          cases e with
          | some err => rfl
          | none => exact ih
      next hr => rfl

/-- `validateAux` succeeds exactly when every entry of the list that has a
schema entry carries a recognized type and coerces cleanly. -/
theorem validateAux_ok_iff (d : FieldData) (l : List (String × GoValue)) :
    validateAux d l = .ok none ↔
      ∀ fv ∈ l, ∀ s, d.Schema.lookup fv.1 = some s →
        s.Typ.recognized = true ∧ coerceErr d fv.1 s = none := by
  induction l with
  | nil => simp [validateAux]
  | cons p rest ih =>
    obtain ⟨field, value⟩ := p
    simp only [validateAux]
    split
    next hs =>
      rw [ih]
      constructor
      · rintro h fv hfv s hlook
        rcases List.mem_cons.mp hfv with rfl | hmem
        · rw [hs] at hlook; cases hlook
        · exact h fv hmem s hlook
      · intro h fv hfv s hlook
        exact h fv (List.mem_cons_of_mem _ hfv) s hlook
    next schema hs =>
      split
      next hr =>
        cases hgp : d.getPrimitive field schema with
        | panicked m =>
          have hok := getPrimitive_isOk d field schema hr
          rw [hgp] at hok
          simp [GoResult.isOk] at hok
        | ok t =>
          obtain ⟨r, b, e⟩ := t
          have hce : coerceErr d field schema = e := by
            simp [coerceErr, hgp]
          cases e with
          | some err =>
            simp only [GoResult.ok.injEq]
            constructor
            · intro hcontra; cases hcontra
            · intro h
              have hnone := (h (field, value) (List.mem_cons_self _ _) schema hs).2
              rw [hce] at hnone
              cases hnone
          | none =>
            rw [ih]
            constructor
            · rintro h fv hfv s hlook
              rcases List.mem_cons.mp hfv with rfl | hmem
              · rw [hs] at hlook
                injection hlook with h2
                subst h2
                exact ⟨hr, hce⟩
              · exact h fv hmem s hlook
            · intro h fv hfv s hlook
              exact h fv (List.mem_cons_of_mem _ hfv) s hlook
      next hr =>
        constructor
        · intro hcontra; cases hcontra
        · intro h
          exact absurd (h (field, value) (List.mem_cons_self _ _) schema hs).1 hr

/-- Entries with no schema entry can be dropped from the record without
changing the outcome of `validateAux`: unschema'd fields never affect the
result. -/
theorem validateAux_filter (d : FieldData) (l : List (String × GoValue)) :
    validateAux d (l.filter fun fv => (d.Schema.lookup fv.1).isSome)
      = validateAux d l := by
  induction l with
  | nil => rfl
  | cons p rest ih =>
    obtain ⟨field, value⟩ := p
    cases hs : d.Schema.lookup field with
    | none =>
      have hcons : validateAux d ((field, value) :: rest) = validateAux d rest := by
        simp only [validateAux, hs]
      have hfil : ((field, value) :: rest).filter
            (fun fv => (d.Schema.lookup fv.1).isSome)
          = rest.filter (fun fv => (d.Schema.lookup fv.1).isSome) := by
        simp [List.filter_cons, hs]
      rw [hfil, ih, hcons]
    | some schema =>
      have hfil : ((field, value) :: rest).filter
            (fun fv => (d.Schema.lookup fv.1).isSome)
          = (field, value) :: rest.filter (fun fv => (d.Schema.lookup fv.1).isSome) := by
        simp [List.filter_cons, hs]
      rw [hfil]
      simp only [validateAux, hs]
      split
      · cases hgp : d.getPrimitive field schema with
        | panicked m => rfl
        | ok t =>
          obtain ⟨r, b, e⟩ := t
          cases e with
          | some err => rfl
          | none => exact ih
      · rfl

/-- When every recognized schema-known entry coerces cleanly but some entry
carries an unrecognized type, `validateAux` reports the unknown-type error of
such an entry, naming its field and type. -/
theorem validateAux_unrecognized (d : FieldData) (l : List (String × GoValue))
    (hclean : ∀ fv ∈ l, ∀ s, d.Schema.lookup fv.1 = some s →
      s.Typ.recognized = true → coerceErr d fv.1 s = none)
    (hbad : ∃ fv ∈ l, ∃ s, d.Schema.lookup fv.1 = some s ∧
      s.Typ.recognized = false) :
    ∃ k₂ s₂, (∃ v₂, (k₂, v₂) ∈ l) ∧ d.Schema.lookup k₂ = some s₂ ∧
      s₂.Typ.recognized = false ∧
      validateAux d l = .ok (some (unknownTypeMsg s₂.Typ k₂)) := by
  induction l with
  | nil =>
    obtain ⟨fv, hfv, _⟩ := hbad
    cases hfv
  | cons p rest ih =>
    obtain ⟨field, value⟩ := p
    cases hs : d.Schema.lookup field with
    | none =>
      have step : validateAux d ((field, value) :: rest) = validateAux d rest := by
        simp only [validateAux, hs]
      obtain ⟨fv, hfv, s, hlook, hrec⟩ := hbad
      have hbad2 : ∃ fv ∈ rest, ∃ s, d.Schema.lookup fv.1 = some s ∧
          s.Typ.recognized = false := by
        rcases List.mem_cons.mp hfv with rfl | hmem
        · rw [hs] at hlook; cases hlook
        · exact ⟨fv, hmem, s, hlook, hrec⟩
      obtain ⟨k₂, s₂, ⟨v₂, hv₂⟩, h1, h2, h3⟩ :=
        ih (fun fv h => hclean fv (List.mem_cons_of_mem _ h)) hbad2
      exact ⟨k₂, s₂, ⟨v₂, List.mem_cons_of_mem _ hv₂⟩, h1, h2, step.trans h3⟩
    | some schema =>
      by_cases hr : schema.Typ.recognized = true
      · have hce := hclean (field, value) (List.mem_cons_self _ _) schema hs hr
        obtain ⟨r, b, hgp⟩ := getPrimitive_clean d field schema hr hce
        have step : validateAux d ((field, value) :: rest) = validateAux d rest := by
          simp only [validateAux, hs]
          rw [if_pos hr, hgp]
        obtain ⟨fv, hfv, s, hlook, hrec⟩ := hbad
        have hbad2 : ∃ fv ∈ rest, ∃ s, d.Schema.lookup fv.1 = some s ∧
            s.Typ.recognized = false := by
          rcases List.mem_cons.mp hfv with rfl | hmem
          · rw [hs] at hlook
            injection hlook with h2
            subst h2
            rw [hr] at hrec
            cases hrec
          · exact ⟨fv, hmem, s, hlook, hrec⟩
        obtain ⟨k₂, s₂, ⟨v₂, hv₂⟩, h1, h2, h3⟩ :=
          ih (fun fv h => hclean fv (List.mem_cons_of_mem _ h)) hbad2
        exact ⟨k₂, s₂, ⟨v₂, List.mem_cons_of_mem _ hv₂⟩, h1, h2, step.trans h3⟩
      · have hrec : schema.Typ.recognized = false := by
          cases h : schema.Typ.recognized
          · rfl
          · exact absurd h hr
        refine ⟨field, schema, ⟨value, List.mem_cons_self _ _⟩, hs, hrec, ?_⟩
        simp only [validateAux, hs]
        rw [if_neg hr]

/-- C1: `Validate` succeeds iff every key present in both the raw record and
the schema map has a recognized type and coerces cleanly under it; entries
without a schema entry never affect the result (the record may be filtered to
its schema-known entries without changing the outcome), and schema keys absent
from the raw record are never consulted; moreover when a present schema-known
key has an unrecognized type (and the recognized ones all coerce cleanly, so
no earlier coercion failure preempts it), `Validate` returns the error naming
an offending field and its type. -/
theorem validate_success_iff (d : FieldData) :
    (d.Validate = GoResult.ok none ↔
      ∀ fv ∈ d.Raw, ∀ s, d.Schema.lookup fv.1 = some s →
        s.Typ.recognized = true ∧ coerceErr d fv.1 s = none) ∧
    validateAux d (d.Raw.filter fun fv => (d.Schema.lookup fv.1).isSome)
      = d.Validate ∧
    (∀ k v s, (k, v) ∈ d.Raw → d.Schema.lookup k = some s →
      s.Typ.recognized = false →
      (∀ fv ∈ d.Raw, ∀ s2, d.Schema.lookup fv.1 = some s2 →
        s2.Typ.recognized = true → coerceErr d fv.1 s2 = none) →
      ∃ k₂ s₂, (∃ v₂, (k₂, v₂) ∈ d.Raw) ∧ d.Schema.lookup k₂ = some s₂ ∧
        s₂.Typ.recognized = false ∧
        d.Validate = GoResult.ok (some (unknownTypeMsg s₂.Typ k₂))) := by
  refine ⟨validateAux_ok_iff d d.Raw, validateAux_filter d d.Raw, ?_⟩
  intro k v s hmem hlook hrec hclean
  exact validateAux_unrecognized d d.Raw hclean ⟨(k, v), hmem, s, hlook, hrec⟩

/-- A concrete decoder whose only field declares an unrecognized type. -/
def exInvalidTyped : FieldData :=
  ⟨[("a", .vInt 1)], [("a", ⟨.typeInvalid, none⟩)]⟩

/-- Witness for C1 at a concrete decoder: the unrecognized-type clause fires
and `Validate` reports the unknown-type error. -/
theorem validate_success_iff_witness :
    ∃ k₂ s₂, (∃ v₂, (k₂, v₂) ∈ exInvalidTyped.Raw) ∧
      exInvalidTyped.Schema.lookup k₂ = some s₂ ∧
      s₂.Typ.recognized = false ∧
      exInvalidTyped.Validate = GoResult.ok (some (unknownTypeMsg s₂.Typ k₂)) := by
  apply (validate_success_iff exInvalidTyped).2.2 "a" (GoValue.vInt 1)
      ⟨FieldType.typeInvalid, none⟩ (List.mem_cons_self _ _) rfl rfl
  intro fv hfv s2 hlook hrec
  rcases List.mem_cons.mp hfv with rfl | h0
  · rw [show exInvalidTyped.Schema.lookup ("a", GoValue.vInt 1).1
        = some ⟨FieldType.typeInvalid, none⟩ from rfl] at hlook
    injection hlook with h2
    subst h2
    cases hrec
  · cases h0

/-- C2: `GetOkErr` never panics; an unknown key yields an error naming the
field; an unrecognized schema type yields an error naming the field and type;
a failing coercion of a present value yields exactly that coercion error; a
schema-known recognized key absent from the raw record yields
`(nil, false, nil)`. -/
theorem getOkErr_total_contract (d : FieldData) (k : String) :
    (∃ r, d.GetOkErr k = GoResult.ok r) ∧
    (d.Schema.lookup k = none →
      d.GetOkErr k = .ok (none, false, some (unknownFieldMsg k))) ∧
    (∀ s, d.Schema.lookup k = some s → s.Typ.recognized = false →
      d.GetOkErr k = .ok (none, false, some (unknownTypeMsg s.Typ k))) ∧
    (∀ s e, d.Schema.lookup k = some s → s.Typ.recognized = true →
      coerceErr d k s = some e →
      ∃ r b, d.GetOkErr k = .ok (r, b, some e)) ∧
    (∀ s, d.Schema.lookup k = some s → s.Typ.recognized = true →
      d.Raw.lookup k = none → d.GetOkErr k = .ok (none, false, none)) := by
  refine ⟨?_, ?_, ?_, ?_, ?_⟩
  · cases hs : d.Schema.lookup k with
    | none =>
      exact ⟨(none, false, some (unknownFieldMsg k)),
        by simp only [FieldData.GetOkErr, hs]⟩
    | some schema =>
      by_cases hr : schema.Typ.recognized = true
      · obtain ⟨t, ht⟩ := getPrimitive_ok d k schema hr
        refine ⟨t, ?_⟩
        simp only [FieldData.GetOkErr, hs, if_pos hr]
        exact ht
      · exact ⟨(none, false, some (unknownTypeMsg schema.Typ k)),
          by simp only [FieldData.GetOkErr, hs, if_neg hr]⟩
  · intro hs
    simp only [FieldData.GetOkErr, hs]
  · intro s hs hr
    simp only [FieldData.GetOkErr, hs, hr]
    simp
  · intro s e hs hr he
    simp only [FieldData.GetOkErr, hs, if_pos hr]
    exact getPrimitive_errOf d k s hr he
  · intro s hs hr hraw
    simp only [FieldData.GetOkErr, hs, if_pos hr]
    simp only [FieldData.getPrimitive, hraw]

/-- An empty decoder: no raw entries and no schema entries. -/
def exEmptyData : FieldData := ⟨[], []⟩

/-- Witness for C2 at a concrete decoder: asking for a key with no schema
entry returns the schema error without panicking. -/
theorem getOkErr_total_contract_witness :
    exEmptyData.GetOkErr "z"
      = GoResult.ok (none, false, some (unknownFieldMsg "z")) :=
  (getOkErr_total_contract exEmptyData "z").2.1 rfl

/-- A decoder with a single duration-second field "ttl" holding `raw`. -/
def durationData (raw : GoValue) : FieldData :=
  ⟨[("ttl", raw)], [("ttl", ⟨.typeDurationSecond, none⟩)]⟩

/-- Counterexample to C3 as stated: a `json.Number` raw value is neither of an
integer-family numeric kind, nor nil, nor a string, so the claim requires the
coercion to fail with a type-mismatch error; the code parses it as an integer
and succeeds with no error. -/
theorem duration_json_number_counterexample :
    (durationData (.vJsonNumber "7")).GetOkErr "ttl"
      = GoResult.ok (some (.vInt 7), true, none) := rfl

/-- C3 (amended): duration-second coercion: "2m" decodes to 120, the integer
90 to 90, and "nonsense" fails with a coercion error; every integer-family
numeric kind is truncated to an integer second count (64-bit unsigned values
wrapping); floating-point values are truncated toward zero; a numeric-string
wire value (`json.Number`) is parsed as an integer; nil is treated as
not-present; and any other representation fails with a type-mismatch
error. -/
theorem duration_second_coercion :
    (durationData (.vString "2m")).GetOkErr "ttl"
      = GoResult.ok (some (.vInt 120), true, none) ∧
    (durationData (.vInt 90)).GetOkErr "ttl"
      = GoResult.ok (some (.vInt 90), true, none) ∧
    (durationData (.vString "nonsense")).GetOkErr "ttl"
      = GoResult.ok (none, true, some "invalid duration nonsense") ∧
    (∀ n : Int,
      (durationData (.vInt n)).GetOkErr "ttl"
        = GoResult.ok (some (.vInt n), true, none) ∧
      (durationData (.vInt32 n)).GetOkErr "ttl"
        = GoResult.ok (some (.vInt n), true, none) ∧
      (durationData (.vInt64 n)).GetOkErr "ttl"
        = GoResult.ok (some (.vInt n), true, none)) ∧
    (∀ n : Nat,
      (durationData (.vUInt n)).GetOkErr "ttl"
        = GoResult.ok (some (.vInt (wrap64 n)), true, none) ∧
      (durationData (.vUInt32 n)).GetOkErr "ttl"
        = GoResult.ok (some (.vInt (Int.ofNat n)), true, none) ∧
      (durationData (.vUInt64 n)).GetOkErr "ttl"
        = GoResult.ok (some (.vInt (wrap64 n)), true, none)) ∧
    (∀ q : Rat,
      (durationData (.vFloat32 q)).GetOkErr "ttl"
        = GoResult.ok (some (.vInt (ratTrunc q)), true, none) ∧
      (durationData (.vFloat64 q)).GetOkErr "ttl"
        = GoResult.ok (some (.vInt (ratTrunc q)), true, none)) ∧
    (∀ s : String,
      (durationData (.vJsonNumber s)).GetOkErr "ttl"
        = match jsonNumberInt64 s with
          | .ok n => GoResult.ok (some (.vInt n), true, none)
          | .error e => GoResult.ok (none, true, some e)) ∧
    (∀ s : String,
      (durationData (.vString s)).GetOkErr "ttl"
        = match ParseDurationSecond s with
          | .ok n => GoResult.ok (some (.vInt n), true, none)
          | .error e => GoResult.ok (none, true, some e)) ∧
    (durationData .vNil).GetOkErr "ttl" = GoResult.ok (none, false, none) ∧
    (∀ b, (durationData (.vBool b)).GetOkErr "ttl"
      = GoResult.ok (none, false,
          some ("invalid input " ++ (GoValue.vBool b).render))) ∧
    (∀ ss, (durationData (.vStrSlice ss)).GetOkErr "ttl"
      = GoResult.ok (none, false, some "invalid input [slice]")) ∧
    (∀ xs, (durationData (.vSlice xs)).GetOkErr "ttl"
      = GoResult.ok (none, false, some "invalid input [slice]")) ∧
    (∀ m, (durationData (.vMap m)).GetOkErr "ttl"
      = GoResult.ok (none, false, some "invalid input map[]")) := by
  refine ⟨rfl, rfl, rfl, fun n => ⟨rfl, rfl, rfl⟩, fun n => ⟨rfl, rfl, rfl⟩,
    fun q => ⟨rfl, rfl⟩, ?_, ?_, rfl,
    fun b => rfl, fun ss => rfl, fun xs => rfl, fun m => rfl⟩
  · intro s
    have hred : (durationData (.vJsonNumber s)).GetOkErr "ttl"
        = match jsonNumberInt64 s with
          | .error e => GoResult.ok (none, true, some e)
          | .ok n => GoResult.ok (some (.vInt n), true, none) := rfl
    rw [hred]
    cases jsonNumberInt64 s <;> rfl
  · intro s
    have hred : (durationData (.vString s)).GetOkErr "ttl"
        = match ParseDurationSecond s with
          | .error e => GoResult.ok (none, true, some e)
          | .ok n => GoResult.ok (some (.vInt n), true, none) := rfl
    rw [hred]
    cases ParseDurationSecond s <;> rfl

/-- A decoder with a single name-string field "name" holding `raw`. -/
def nameData (raw : GoValue) : FieldData :=
  ⟨[("name", raw)], [("name", ⟨.typeNameString, none⟩)]⟩

/-- C4: name-string coercion: whatever the raw value weakly decodes to as a
string, it is accepted exactly when the name pattern holds (nonempty, starts
and ends with a word character, every interior character a word character,
hyphen or period), rejected otherwise with the formatting error;
"my-secret.v1" succeeds while "-bad", "bad!" and "" fail. -/
theorem name_string_pattern :
    (∀ raw str, weakDecodeString raw = Except.ok str →
      (nameData raw).GetOkErr "name"
        = if nameStringValid str
          then GoResult.ok (some (.vString str), true, none)
          else GoResult.ok (none, true, some nameFormatErr)) ∧
    (nameData (.vString "my-secret.v1")).GetOkErr "name"
      = GoResult.ok (some (.vString "my-secret.v1"), true, none) ∧
    (nameData (.vString "-bad")).GetOkErr "name"
      = GoResult.ok (none, true, some nameFormatErr) ∧
    (nameData (.vString "bad!")).GetOkErr "name"
      = GoResult.ok (none, true, some nameFormatErr) ∧
    (nameData (.vString "")).GetOkErr "name"
      = GoResult.ok (none, true, some nameFormatErr) := by
  refine ⟨?_, rfl, rfl, rfl, rfl⟩
  intro raw str h
  have hred : (nameData raw).GetOkErr "name"
      = match weakDecodeString raw with
        | .error e => GoResult.ok (none, true, some e)
        | .ok s =>
          if nameStringValid s then GoResult.ok (some (.vString s), true, none)
          else GoResult.ok (none, true, some nameFormatErr) := rfl
  rw [hred, h]

/-- Witness for C4: the integer 7 weakly decodes to the string "7", which
satisfies the name pattern. -/
theorem name_string_pattern_witness :
    (nameData (.vInt 7)).GetOkErr "name"
      = if nameStringValid "7"
        then GoResult.ok (some (.vString "7"), true, none)
        else GoResult.ok (none, true, some nameFormatErr) :=
  name_string_pattern.1 (.vInt 7) "7" rfl

/-- A decoder whose only schema field has a configured default but whose raw
record is empty. -/
def exAbsentDefault : FieldData := ⟨[], [("n", ⟨.typeInt, some (.vInt 42)⟩)]⟩

/-- A decoder whose duration-second field is present in the raw record with a
nil value, and carries a configured default. -/
def exNilDuration : FieldData :=
  ⟨[("ttl", .vNil)], [("ttl", ⟨.typeDurationSecond, some (.vInt 5)⟩)]⟩

/-- Counterexample to C5 as stated.  First: `GetOk` on a field absent from
the raw record returns `(nil, false)` and not the schema default-or-zero
value `42` — the substitution step in the source requires the present flag,
which is false here.  Second: on a duration-second field present in the raw
record with value nil (the one coercion that reports a successful nil), the
present flag comes back false, not true, and no default is substituted — the
flag follows the coercion's ok flag, not raw-record presence. -/
theorem getOk_claim_counterexample :
    (exAbsentDefault.GetOk "n" = GoResult.ok (none, false) ∧
      GoResult.ok ((none : Option GoValue), false)
        ≠ GoResult.ok (some (GoValue.vInt 42), false)) ∧
    (exNilDuration.Raw.lookup "ttl" = some .vNil ∧
      exNilDuration.GetOk "ttl" = GoResult.ok (none, false) ∧
      GoResult.ok ((none : Option GoValue), false)
        ≠ GoResult.ok (some (GoValue.vInt 5), true)) := by
  refine ⟨⟨rfl, ?_⟩, rfl, rfl, ?_⟩ <;> simp

/-- C5 (amended): `GetOk` returns `(nil, present=false)` when the key is
unknown in the schema; `(nil, false)` — with no default substitution — when a
recognized schema-known field is absent from the raw record; the decoded
value unchanged together with the dispatcher's present flag whenever coercion
reports a non-nil value cleanly; and `(nil, false)` for a duration-second
field whose raw value is nil: the present flag follows the coercion's ok
flag, not raw-record presence. -/
theorem getOk_contract (d : FieldData) (k : String) :
    (d.Schema.lookup k = none → d.GetOk k = GoResult.ok (none, false)) ∧
    (∀ s, d.Schema.lookup k = some s → s.Typ.recognized = true →
      d.Raw.lookup k = none → d.GetOk k = GoResult.ok (none, false)) ∧
    (∀ s v b, d.Schema.lookup k = some s →
      d.GetOkErr k = GoResult.ok (some v, b, none) →
      d.GetOk k = GoResult.ok (some v, b)) ∧
    (∀ s, d.Schema.lookup k = some s → s.Typ = .typeDurationSecond →
      d.Raw.lookup k = some .vNil → d.GetOk k = GoResult.ok (none, false)) := by
  refine ⟨?_, ?_, ?_, ?_⟩
  · intro hs
    simp only [FieldData.GetOk, hs]
  · intro s hs hr hraw
    have hoe : d.GetOkErr k = GoResult.ok (none, false, none) := by
      simp only [FieldData.GetOkErr, hs, if_pos hr]
      simp only [FieldData.getPrimitive, hraw]
    simp only [FieldData.GetOk, hs, hoe]
    simp
  · intro s v b hs hoe
    simp only [FieldData.GetOk, hs, hoe]
    simp [Option.isNone]
  · intro s hs ht hraw
    have hr : s.Typ.recognized = true := by rw [ht]; rfl
    have hoe : d.GetOkErr k = GoResult.ok (none, false, none) := by
      simp only [FieldData.GetOkErr, hs, if_pos hr]
      simp only [FieldData.getPrimitive, hraw, ht]
    simp only [FieldData.GetOk, hs, hoe]
    simp

/-- Witness for C5 (amended) at a concrete decoder: the absent-field clause
gives `(nil, false)` for a field with a configured default. -/
theorem getOk_contract_witness :
    exAbsentDefault.GetOk "n" = GoResult.ok (none, false) :=
  (getOk_contract exAbsentDefault "n").2.1 ⟨.typeInt, some (.vInt 42)⟩ rfl rfl rfl

/-- A decoder with a single comma-string-slice field "tags" holding `raw`. -/
def commaData (raw : GoValue) : FieldData :=
  ⟨[("tags", raw)], [("tags", ⟨.typeCommaStringSlice, none⟩)]⟩

/-- C6: comma-string-slice coercion of a single raw string splits it on
commas and trims surrounding whitespace from each element, in order; the raw
string "a, b ,c" yields exactly ["a", "b", "c"]. -/
theorem comma_string_slice_split :
    (∀ s : String, s ≠ "" →
      (commaData (.vString s)).GetOkErr "tags"
        = GoResult.ok (some (.vStrSlice (TrimStrings (splitCommas s))), true,
            none)) ∧
    (commaData (.vString "a, b ,c")).GetOkErr "tags"
      = GoResult.ok (some (.vStrSlice ["a", "b", "c"]), true, none) := by
  refine ⟨?_, rfl⟩
  intro s hne
  have hred : (commaData (.vString s)).GetOkErr "tags"
      = match commaDecodeStringSlice (.vString s) with
        | .error e => GoResult.ok (none, false, some e)
        | .ok xs => GoResult.ok (some (.vStrSlice (TrimStrings xs)), true, none)
      := rfl
  rw [hred]
  simp only [commaDecodeStringSlice, if_neg hne]

/-- Witness for C6 at a concrete nonempty string. -/
theorem comma_string_slice_split_witness :
    (commaData (.vString "x")).GetOkErr "tags"
      = GoResult.ok (some (.vStrSlice (TrimStrings (splitCommas "x"))), true,
          none) :=
  comma_string_slice_split.1 "x" (by decide)

/-- A decoder whose only schema field has type int with default 9 and whose
raw record is empty. -/
def exIntDefault : FieldData := ⟨[], [("m", ⟨.typeInt, some (.vInt 9)⟩)]⟩

/-- C7: `Get` and `GetDefaultOrZero` both panic on a key with no schema
entry; on a schema-known key, `GetDefaultOrZero` returns the configured
default or, failing that, the type's zero value, and `Get` returns the
`GetOk` value, substituting the default-or-zero value exactly when the field
is not present. -/
theorem get_fatal_and_default (d : FieldData) (k : String) :
    (d.Schema.lookup k = none →
      d.Get k = GoResult.panicked (notInSchemaMsg k) ∧
      d.GetDefaultOrZero k = GoResult.panicked (notInSchemaMsg k)) ∧
    (∀ s, d.Schema.lookup k = some s →
      d.GetDefaultOrZero k = GoResult.ok s.DefaultOrZero ∧
      (∀ v, d.GetOk k = GoResult.ok (v, false) →
        d.Get k = GoResult.ok (some s.DefaultOrZero)) ∧
      (∀ v, d.GetOk k = GoResult.ok (v, true) → d.Get k = GoResult.ok v) ∧
      (∀ dv, s.Default = some dv → s.DefaultOrZero = dv) ∧
      (s.Default = none → s.DefaultOrZero = s.Typ.zero)) := by
  constructor
  · intro hs
    constructor <;> simp only [FieldData.Get, FieldData.GetDefaultOrZero, hs]
  · intro s hs
    refine ⟨?_, ?_, ?_, ?_, ?_⟩
    · simp only [FieldData.GetDefaultOrZero, hs]
    · intro v hok
      simp only [FieldData.Get, hs, hok]
      simp
    · intro v hok
      simp only [FieldData.Get, hs, hok]
      simp
    · intro dv hdv
      simp only [FieldSchema.DefaultOrZero, hdv]
    · intro hdv
      simp only [FieldSchema.DefaultOrZero, hdv]

/-- Witness for C7 at a concrete decoder: the field is absent, so `Get`
returns the configured default 9 and `GetDefaultOrZero` returns it too. -/
theorem get_fatal_and_default_witness :
    exIntDefault.Get "m" = GoResult.ok (some (GoValue.vInt 9)) ∧
    exIntDefault.GetDefaultOrZero "m" = GoResult.ok (GoValue.vInt 9) := by
  have h := (get_fatal_and_default exIntDefault "m").2
    ⟨.typeInt, some (.vInt 9)⟩ rfl
  exact ⟨h.2.1 none rfl, h.1⟩

/-- One public operation of the decoder, with its key where one applies. -/
inductive AccessorOp where
  | get : String → AccessorOp
  | getOk : String → AccessorOp
  | getOkErr : String → AccessorOp
  | getDefaultOrZero : String → AccessorOp
  | validate : AccessorOp

/-- The outcome of one public operation, one constructor per result shape. -/
inductive AccessorOut where
  | value : GoResult (Option GoValue) → AccessorOut
  | single : GoResult GoValue → AccessorOut
  | pair : GoResult (Option GoValue × Bool) → AccessorOut
  | triple : GoResult (Option GoValue × Bool × Option String) → AccessorOut
  | report : GoResult (Option String) → AccessorOut

/-- Run one public operation, returning its outcome and the decoder state it
leaves behind.  Every method in the source only reads `d.Raw` and `d.Schema`
and assigns to neither, so each call leaves the decoder unchanged. -/
def runOp (d : FieldData) : AccessorOp → AccessorOut × FieldData
  | .get k => (.value (d.Get k), d)
  | .getOk k => (.pair (d.GetOk k), d)
  | .getOkErr k => (.triple (d.GetOkErr k), d)
  | .getDefaultOrZero k => (.single (d.GetDefaultOrZero k), d)
  | .validate => (.report d.Validate, d)

/-- The decoder state left after a sequence of public operations. -/
def runOps (d : FieldData) : List AccessorOp → FieldData
  | [] => d
  | op :: rest => runOps (runOp d op).2 rest

/-- C8: calling any accessor twice in succession on an unmodified decoder
returns identical results: each operation leaves the decoder state unchanged,
and the outcome is a function of that state. -/
theorem accessor_idempotent (d : FieldData) (op : AccessorOp) :
    (runOp d op).2 = d ∧
    (runOp (runOp d op).2 op).1 = (runOp d op).1 := by
  have h2 : (runOp d op).2 = d := by cases op <;> rfl
  exact ⟨h2, by rw [h2]⟩

/-- C9: no sequence of decoder operations mutates the raw record or the
schema map: after any run, both components are unchanged. -/
theorem decoder_no_mutation (d : FieldData) (ops : List AccessorOp) :
    (runOps d ops).Raw = d.Raw ∧ (runOps d ops).Schema = d.Schema := by
  induction ops generalizing d with
  | nil => exact ⟨rfl, rfl⟩
  | cons op rest ih =>
    have h2 : (runOp d op).2 = d := by cases op <;> rfl
    have hstep : runOps d (op :: rest) = runOps d rest := by
      simp only [runOps, h2]
    rw [hstep]
    exact ih d

/-- `GetOkErr` never panics: the nine-type membership is checked before the
dispatcher is invoked. -/
theorem getOkErr_isOk (d : FieldData) (k : String) :
    (d.GetOkErr k).isOk = true := by
  cases hs : d.Schema.lookup k with
  | none =>
    simp only [FieldData.GetOkErr, hs]
    rfl
  | some schema =>
    by_cases hr : schema.Typ.recognized = true
    · simp only [FieldData.GetOkErr, hs, if_pos hr]
      exact getPrimitive_isOk d k schema hr
    · simp only [FieldData.GetOkErr, hs, if_neg hr]
      rfl

/-- A decoder with one bool field present in the raw record. -/
def exBoolData : FieldData := ⟨[("f", .vBool true)], [("f", ⟨.typeBool, none⟩)]⟩

/-- C10: the unknown-type panic branch in the dispatcher's default case is
unreachable through the public interface: on any recognized type the
dispatcher returns normally, and its two callers, `GetOkErr` and `Validate`,
only invoke it after checking the nine-type membership, so both always return
normally themselves. -/
theorem dispatcher_panic_unreachable (d : FieldData) (k : String) :
    (∀ s, s.Typ.recognized = true → ∃ t, d.getPrimitive k s = GoResult.ok t) ∧
    (∃ r, d.GetOkErr k = GoResult.ok r) ∧
    (∃ w, d.Validate = GoResult.ok w) :=
  ⟨fun s hr => getPrimitive_ok d k s hr,
    GoResult.isOk_exists (getOkErr_isOk d k),
    GoResult.isOk_exists (validateAux_isOk d d.Raw)⟩

/-- Witness for C10 at a concrete decoder and recognized schema entry. -/
theorem dispatcher_panic_unreachable_witness :
    ∃ t, exBoolData.getPrimitive "f" ⟨FieldType.typeBool, none⟩
      = GoResult.ok t :=
  (dispatcher_panic_unreachable exBoolData "f").1 ⟨.typeBool, none⟩ rfl
